import Mathlib

/-!
Verification of the doctor validation-and-dispatch layer.

This file shallowly embeds the request pipeline of `doctor/flask.py`
(`handle_http_v3`, `handle_http`), the route synthesis of
`doctor/routing.py` (`create_routes`, `create_http_method`) and the
signature introspection (`get_params_from_func`, whose code lives in
`doctor/utils.py`), and proves the testable properties of the
specification against the embedding.

Values flowing through the pipeline (request parameters, logic-function
results) are modelled by the inductive `Val`; Python dicts are modelled
as association lists with dict-style update (existing keys replaced in
place, new keys appended).
-/

namespace Doctor

/-- A request/response value. Python values relevant to the pipeline are
modelled as strings, integers and booleans. -/
inductive Val where
  | str (s : String)
  | int (n : Int)
  | bool (b : Bool)
  deriving DecidableEq, Repr

/-- Python `str()` of a `Val`. -/
def pyStr : Val → String
  | .str s => s
  | .int n => toString n
  | .bool b => if b then "True" else "False"

/-- The closed set of semantic error kinds of the error taxonomy
(`doctor/errors.py` exceptions caught in `doctor/flask.py`, plus `other`
for any exception the pipeline does not recognize). -/
inductive ErrKind where
  | invalidValue
  | parseError
  | typeSystem
  | schemaValidation
  | unauthorized
  | forbidden
  | notFound
  | immutable
  | other
  deriving DecidableEq, Repr

/-- A raised Python exception as the pipeline sees it: its semantic kind,
its message, an optional per-field `errors` payload
(`getattr(e, 'errors', None)` in `doctor/flask.py`), the identity of its
concrete class (`cls`) and the identities of that class's proper
ancestors (`ancestors`), used for `isinstance` checks against the
allowed-exceptions list. -/
structure Exc where
  kind : ErrKind
  msg : String
  errors : Option (List (String × String))
  cls : Nat
  ancestors : List Nat
  deriving DecidableEq, Repr

/-- Python `isinstance(e, c)`: the class `c` is the exception's concrete
class or one of its ancestors. -/
def isInstanceOf (e : Exc) (c : Nat) : Bool :=
  c = e.cls || e.ancestors.contains c

/-- The HTTP exceptions raised by the translation cascade in
`doctor/flask.py`: `HTTP400Exception` carries the `errobj` per-field
payload, the others carry only the description. -/
inductive HttpExc where
  | http400 (msg : String) (errobj : Option (List (String × String)))
  | http401 (msg : String)
  | http403 (msg : String)
  | http404 (msg : String)
  | http409 (msg : String)
  | http500 (msg : String)
  deriving DecidableEq, Repr

/-- Result of the exception-translation cascade: either a translated
HTTP exception is raised, or the original exception is re-raised
unchanged. -/
inductive TranslateResult where
  | raised (e : HttpExc)
  | reraised (e : Exc)
  deriving DecidableEq, Repr

/-- Outcome of exception translation, recording whether
`logging.exception` was called on the original exception. -/
structure TranslateOutcome where
  result : TranslateResult
  logged : Bool
  deriving DecidableEq, Repr

/-- Modelled from the spec: `doctor/errors.py` is not under `src/`, so
the class hierarchy deciding which concrete exception classes are
accepted by the 400 catch tuples (`except (InvalidValueError,
TypeSystemError)` in `handle_http_v3`, `except (InvalidValueError,
ParseError, SchemaValidationError)` in `handle_http`) is modelled from
the spec's status table, which groups invalid-value, parse, type-system
and schema-validation errors as the single 400 kind. -/
def catches400 : ErrKind → Bool
  | .invalidValue => true
  | .parseError => true
  | .typeSystem => true
  | .schemaValidation => true
  | _ => false

/-- The exception-translation cascade shared by `handle_http_v3`
(`doctor/flask.py` lines 161-180) and `handle_http` (lines 253-272):
the 400 kinds first (with the `errors` payload attached as `errobj`),
then unauthorized 401, forbidden 403, not-found 404, immutable 409; any
other exception re-raises when the app DEBUG config is set or the
exception is an instance of a class in `allowed_exceptions`, and is
otherwise logged and turned into a 500 with a fixed message. -/
def translateException (debug : Bool) (allowed : List Nat) (e : Exc) :
    TranslateOutcome :=
  if catches400 e.kind then
    ⟨.raised (.http400 e.msg e.errors), false⟩
  else if e.kind = .unauthorized then
    ⟨.raised (.http401 e.msg), false⟩
  else if e.kind = .forbidden then
    ⟨.raised (.http403 e.msg), false⟩
  else if e.kind = .notFound then
    ⟨.raised (.http404 e.msg), false⟩
  else if e.kind = .immutable then
    ⟨.raised (.http409 e.msg), false⟩
  else if debug then
    ⟨.reraised e, false⟩
  else if allowed.any (fun c => isInstanceOf e c) then
    ⟨.reraised e, false⟩
  else
    ⟨.raised (.http500 "Uncaught error in logic function"), true⟩

/-- A Python string-keyed mapping (dict or class attribute table)
modelled as an association list. -/
abbrev StrMap (β : Type) := List (String × β)

/-- Dict/attribute assignment `d[k] = v`: replace in place when the key
exists, append otherwise. -/
def dictInsert {β : Type} (d : StrMap β) (k : String) (v : β) : StrMap β :=
  if d.any (fun kv => kv.1 == k) then
    d.map (fun kv => if kv.1 == k then (k, v) else kv)
  else
    d ++ [(k, v)]

/-- Python `d.update(**kwargs)`: assign every kwargs entry in order. -/
def dictUpdate {β : Type} (d : StrMap β) (kwargs : StrMap β) : StrMap β :=
  kwargs.foldl (fun acc kv => dictInsert acc kv.1 kv.2) d

/-- Python `k in d`. -/
def dictHas {β : Type} (d : StrMap β) (k : String) : Bool :=
  d.any (fun kv => kv.1 == k)

/-- A Python dict of request-parameter values. -/
abbrev Dict := StrMap Val

/-- The incoming Flask request as the pipeline reads it: mimetype,
HTTP method, path, the parsed JSON body (`request.json`) and the flat
query/form mapping (`request.values`). -/
structure Request where
  mimetype : String
  method : String
  path : String
  json : Dict
  values : Dict

/-- Modelled from the spec: `doctor/constants.py` is not under `src/`;
the spec says the HTTP verbs that conventionally carry a JSON body are
POST, PUT and PATCH. -/
def HTTP_METHODS_WITH_JSON_BODY : List String := ["POST", "PUT", "PATCH"]

/-- Modelled from the spec: `doctor/constants.py` is not under `src/`;
the source comment in `doctor/flask.py` fixes the response-log limit at
8k (8192 chars). -/
def MAX_RESPONSE_LENGTH : Nat := 8192

/-- The parameter-source selection of `handle_http_v3` (`doctor/flask.py`
lines 114-121): the parsed JSON body when the mimetype is exactly
`application/json` and the verb carries a JSON body, the flat
query/form mapping otherwise. -/
def rawRequestParams (req : Request) : Dict :=
  if req.mimetype = "application/json" ∧
      req.method ∈ HTTP_METHODS_WITH_JSON_BODY then
    req.json
  else
    req.values

/-- The `_doctor_params` record computed by `get_params_from_func`. -/
structure Params where
  all : List String
  required : List String
  optional : List String
  logic : List String
  deriving DecidableEq, Repr

/-- Parameter extraction, filtering and keyword merge of
`handle_http_v3` (`doctor/flask.py` lines 114-125): keep request
entries whose key is among the logic function's `all` names, then
apply the router-supplied kwargs on top. -/
def mergedParams (req : Request) (allNames : List String) (kwargs : Dict) :
    Dict :=
  dictUpdate ((rawRequestParams req).filter (fun kv => allNames.contains kv.1))
    kwargs

/-- The required check of `handle_http_v3` (`doctor/flask.py` lines
128-130): walk the `required` list in order and raise
`InvalidValueError(f'{required} is required.')` at the first name
missing from the merged params. -/
def checkRequired (required : List String) (params : Dict) : Option Exc :=
  match required with
  | [] => none
  | r :: rest =>
    if dictHas params r then
      checkRequired rest params
    else
      some ⟨.invalidValue, r ++ " is required.", none, 0, []⟩

/-- A parameter of the logic function's `_doctor_signature`: its name
and the coercion performed by calling its declared type on a raw value
(`annotation(value)` in `doctor/flask.py` line 134), which may raise. -/
structure SigParam where
  name : String
  coerce : Val → Except Exc Val

/-- The coercion loop of `handle_http_v3` (`doctor/flask.py` lines
131-134): replace each merged param by its declared type applied to the
raw value, in dict order, propagating the first raised exception; a
param name absent from the signature raises a KeyError (an unrecognized
exception). -/
def coerceParams (sig : List SigParam) (params : Dict) : Except Exc Dict :=
  match params with
  | [] => .ok []
  | (k, v) :: rest =>
    match (sig.find? (fun p => p.name == k)) with
    | none => .error ⟨.other, "KeyError: " ++ k, none, 0, []⟩
    | some p =>
      match p.coerce v with
      | .error e => .error e
      | .ok v2 =>
        match coerceParams sig rest with
        | .error e => .error e
        | .ok rest2 => .ok ((k, v2) :: rest2)

/-- The logic function's return value: either a raw value or a
`doctor.response.Response` envelope carrying custom headers. -/
inductive LogicResult where
  | plain (v : Val)
  | envelope (content : Val) (headers : List (String × String))
  deriving DecidableEq, Repr

/-- Unwrapping a Response envelope to its content before response
validation (`doctor/flask.py` lines 140-142). -/
def contentOf : LogicResult → Val
  | .plain v => v
  | .envelope c _ => c

/-- A logic function bound to an HTTP method: its `_doctor_params`,
its `_doctor_signature` parameters, its return annotation if declared
(calling it validates the response and may raise), and the callable
body itself. -/
structure LogicFn where
  params : Params
  sig : List SigParam
  returnAnn : Option (Val → Except Exc Val)
  run : Dict → Except Exc LogicResult

/-- `STATUS_CODE_MAP` of `doctor/flask.py` lines 30-33. -/
def STATUS_CODE_MAP : List (String × Nat) := [("POST", 201), ("DELETE", 204)]

/-- `STATUS_CODE_MAP.get(request.method, 200)`. -/
def statusFor (method : String) : Nat :=
  match STATUS_CODE_MAP.lookup method with
  | some c => c
  | none => 200

/-- The reply returned to the router: a 3-tuple with headers for a
Response envelope, a 2-tuple otherwise. -/
inductive Reply where
  | withHeaders (body : Val) (status : Nat) (headers : List (String × String))
  | noHeaders (body : Val) (status : Nat)
  deriving DecidableEq, Repr

/-- Response shaping of `handle_http_v3` (`doctor/flask.py` lines
157-160): envelope content plus headers, or the raw value, with the
verb-driven status in both cases. -/
def shapeResponse (method : String) (r : LogicResult) : Reply :=
  match r with
  | .envelope c h => .withHeaders c (statusFor method) h
  | .plain v => .noHeaders v (statusFor method)

/-- Truncation of the stringified response before logging
(`doctor/flask.py` lines 146-150 and 238-242): strings longer than
`MAX_RESPONSE_LENGTH` are cut to exactly that many characters plus an
ellipsis marker. -/
def truncateResponse (s : String) : String :=
  if s.length > MAX_RESPONSE_LENGTH then
    (s.take MAX_RESPONSE_LENGTH) ++ "..."
  else
    s

/-- The warning text logged on response-validation failure
(`doctor/flask.py` lines 151-153). -/
def respWarning (method path respStr : String) : String :=
  "Response to " ++ method ++ " " ++ path ++ " does not validate: " ++
    truncateResponse respStr ++ "."

/-- `should_raise_response_validation_errors` (`doctor/flask.py` lines
79-88): true when the app DEBUG config is set or the
`RAISE_RESPONSE_VALIDATION_ERRORS` environment variable is set. -/
def should_raise_response_validation_errors (debug envRaise : Bool) : Bool :=
  debug || envRaise

/-- Outcome of the `try` body of `handle_http_v3`: the reply or the
exception escaping it, the warnings logged along the way, and whether
the logic function was invoked. -/
structure BodyOut where
  result : Except Exc Reply
  warnings : List String
  invoked : Bool

/-- The `try` body of `handle_http_v3` (`doctor/flask.py` lines
109-160): extraction, filtering, kwargs merge, required check, type
coercion, logic invocation, response validation against the return
annotation (logging a truncated warning and re-raising only under the
raise policy), and response shaping. -/
def handleHttpV3Body (debug envRaise : Bool) (req : Request) (kwargs : Dict)
    (logic : LogicFn) : BodyOut :=
  let params := mergedParams req logic.params.all kwargs
  match checkRequired logic.params.required params with
  | some e => ⟨.error e, [], false⟩
  | none =>
    match coerceParams logic.sig params with
    | .error e => ⟨.error e, [], false⟩
    | .ok cparams =>
      match logic.run cparams with
      | .error e => ⟨.error e, [], true⟩
      | .ok response =>
        match logic.returnAnn with
        | none => ⟨.ok (shapeResponse req.method response), [], true⟩
        | some va =>
          match va (contentOf response) with
          | .ok _ => ⟨.ok (shapeResponse req.method response), [], true⟩
          | .error e =>
            if e.kind = .typeSystem then
              let w := respWarning req.method req.path
                (pyStr (contentOf response))
              if should_raise_response_validation_errors debug envRaise then
                ⟨.error e, [w], true⟩
              else
                ⟨.ok (shapeResponse req.method response), [w], true⟩
            else
              ⟨.error e, [], true⟩

/-- Result of a full `handle_http_v3` call as seen by the router. -/
inductive HandleResult where
  | ok (r : Reply)
  | httpError (e : HttpExc)
  | reraised (e : Exc)

/-- Outcome of a full `handle_http_v3` call, with the logging and
invocation record. -/
structure HandleOutcome where
  result : HandleResult
  warnings : List String
  errorLogged : Bool
  invoked : Bool

/-- `handle_http_v3` (`doctor/flask.py` lines 91-180): run the body and
pass any escaping exception through the translation cascade. -/
def handleHttpV3 (debug envRaise : Bool) (allowed : List Nat) (req : Request)
    (kwargs : Dict) (logic : LogicFn) : HandleOutcome :=
  let b := handleHttpV3Body debug envRaise req kwargs logic
  match b.result with
  | .ok r => ⟨.ok r, b.warnings, false, b.invoked⟩
  | .error e =>
    let t := translateException debug allowed e
    match t.result with
    | .raised he => ⟨.httpError he, b.warnings, t.logged, b.invoked⟩
    | .reraised e2 => ⟨.reraised e2, b.warnings, t.logged, b.invoked⟩

/-- The response-validation segment of schema-mode `handle_http`
(`doctor/flask.py` lines 231-247): validate the unwrapped content,
catch only schema-validation failures, log a truncated warning and
re-raise only when the per-resource
`schema.raise_response_validation_errors` flag is set. `respStr` is the
stringified response being logged. -/
def handleHttpRespValidation (raiseFlag : Bool) (method path : String)
    (validate : Val → Option Exc) (response : LogicResult)
    (respStr : String) : Except Exc Unit × List String :=
  match validate (contentOf response) with
  | none => (.ok (), [])
  | some e =>
    if e.kind = .schemaValidation then
      let w := respWarning method path respStr
      if raiseFlag then (.error e, [w]) else (.ok (), [w])
    else
      (.error e, [])

/-- An `HTTPMethod` binding of `doctor/routing.py`: the lower-case verb,
the bound logic function's `__name__` and the identity of the closure
produced by `create_http_method` for it (the wrapper closes over the
logic function, so the logic function's identity stands for it). -/
structure HTTPMethodM where
  method : String
  logicName : String
  logicId : Nat
  deriving DecidableEq, Repr

/-- A `Route` of `doctor/routing.py`: path, ordered method bindings,
optional documentation heading, base handler class (by identity) and
optional explicit handler name. -/
structure RouteM where
  route : String
  methods : List HTTPMethodM
  heading : Option String
  baseHandlerClass : Nat
  handlerName : Option String
  deriving DecidableEq, Repr

/-- A handler type synthesized by `create_routes`: its `__name__`, the
base class it subclasses, its `_doctor_heading`, the verb-to-callable
attribute table, and the Flask `methods` list of accepted upper-case
verb names. -/
structure Handler where
  name : String
  base : Nat
  heading : Option String
  verbFuncs : StrMap Nat
  methods : List String
  deriving DecidableEq, Repr

/-- One iteration of the method loop of `create_routes`
(`doctor/routing.py` lines 131-152). The first verb constructs the
handler type via `type(handler_name, (base,), {...})`; the Flask
`MethodView` base pre-computes the `methods` list from the callables
present at construction (modelled from the spec: `flask_restful` is an
external collaborator), so it starts as the first verb upper-cased.
Subsequent verbs are attached with `setattr` and their upper-cased name
appended to `methods`. -/
def addMethod (r : RouteM) (handler : Option Handler) (m : HTTPMethodM) :
    Option Handler :=
  let handlerName := r.handlerName.getD m.logicName
  match handler with
  | none =>
    some ⟨handlerName, r.baseHandlerClass, r.heading,
      [(m.method, m.logicId)], [m.method.toUpper]⟩
  | some h =>
    some { h with
      verbFuncs := dictInsert h.verbFuncs m.method m.logicId,
      methods := h.methods ++ [m.method.toUpper] }

/-- The inner loop of `create_routes` for one `Route`: fold the method
bindings over an absent handler. -/
def buildHandler (r : RouteM) : Option Handler :=
  r.methods.foldl (addMethod r) none

/-- `create_routes` (`doctor/routing.py` lines 121-154): one
(path, handler) pair per route, in input order. -/
def create_routes (routes : List RouteM) : List (String × Option Handler) :=
  routes.map (fun r => (r.route, buildHandler r))

/-- The parameter list passed positionally to `doctor.flask.handle_http`
by the wrapper built in `create_http_method` (`doctor/routing.py` line
96): `handler, args, kwargs, logic`. -/
def create_http_method_args : List String :=
  ["handler", "args", "kwargs", "logic"]

/-- The declared parameters of `doctor.flask.handle_http`
(`doctor/flask.py` lines 183-184), none of which has a default. -/
def handle_http_params : List String :=
  ["schema", "handler", "args", "kwargs", "logic", "request_schema",
   "request_validator", "response_validator", "allowed_exceptions"]

/-- The number of `handle_http` parameters carrying a default value. -/
def handle_http_default_count : Nat := 0

/-- Python positional-call binding: a call with `nargs` positional
arguments to a function with `nparams` parameters of which the last
`ndefaults` have defaults binds iff every non-default parameter is
covered and no extra argument remains. -/
def pythonCallBinds (nparams ndefaults nargs : Nat) : Bool :=
  decide (nparams - ndefaults ≤ nargs) && decide (nargs ≤ nparams)

/-- Outcome of invoking a synthesized handler callable: Python raises a
TypeError naming the missing parameters before the function body runs
when the call does not bind. -/
inductive CallOutcome (α : Type) where
  | arityError (missing : Nat)
  | completed (a : α)

/-- Invoking a callable produced by `create_http_method`: the wrapper
body applies `handle_http` to `create_http_method_args`; the dispatch
body (`body`) runs only if the call binds. -/
def invokeCreatedHandler {α : Type} (body : Unit → α) : CallOutcome α :=
  if pythonCallBinds handle_http_params.length handle_http_default_count
      create_http_method_args.length then
    .completed (body ())
  else
    .arityError (handle_http_params.length - handle_http_default_count -
      create_http_method_args.length)

/-- The kind of a parameter's declared annotation: a recognized
validating doctor type, or any other annotation (such as a plain `str`
injected by a wrapping decorator). -/
inductive AnnKind where
  | validating
  | plain
  deriving DecidableEq, Repr

/-- A parameter of a logic function's resolved signature. -/
structure FuncParam where
  name : String
  annKind : AnnKind
  hasDefault : Bool
  deriving DecidableEq, Repr

/-- Modelled from the spec: `doctor/utils.py` (`get_params_from_func`,
`Params`) is not under `src/`; per the spec's Signature Introspector and
ParameterSpec contracts, `all` is the ordered sequence of parameter
names of the resolved real signature, `required` the names with a
recognized validating-type annotation and no default, `optional` the
names with a default, and `logic` the names passed into the call (the
signature's names, injected ones included). -/
def get_params_from_func (sig : List FuncParam) : Params :=
  { all := sig.map (fun p => p.name)
    required := (sig.filter
      (fun p => p.annKind == .validating && !p.hasDefault)).map
      (fun p => p.name)
    optional := (sig.filter (fun p => p.hasDefault)).map (fun p => p.name)
    logic := sig.map (fun p => p.name) }

/-- Test fixture: a logic function requiring a single `name` parameter
of a validating string type, as in the spec's create-foo example. -/
def exampleLogicName : LogicFn :=
  ⟨⟨["name"], ["name"], [], ["name"]⟩,
   [⟨"name", fun v => .ok v⟩],
   none,
   fun _ => .ok (.plain (.str "done"))⟩

/-- Test fixture: a JSON POST to `/foo` with an empty body. -/
def exampleEmptyPost : Request :=
  ⟨"application/json", "POST", "/foo", [], []⟩

/-- Test fixture: a JSON POST to `/foo` with body
`{"name": "a", "junk": "x"}`. -/
def exampleNamePost : Request :=
  ⟨"application/json", "POST", "/foo",
   [("name", .str "a"), ("junk", .str "x")], [("q", .str "1")]⟩

/-- Test fixture: a no-parameter logic function whose return annotation
rejects its actual return value with a type-system error. -/
def exampleBadReturnLogic : LogicFn :=
  ⟨⟨[], [], [], []⟩,
   [],
   some (fun _ => .error ⟨.typeSystem, "bad type", none, 0, []⟩),
   fun _ => .ok (.plain (.str "bad"))⟩

/-- Test fixture: a plain GET of `/foo`. -/
def exampleGet : Request :=
  ⟨"text/html", "GET", "/foo", [], []⟩

/-- Test fixture: a route binding GET and POST on `/foo` with an
explicit handler name. -/
def exampleRouteFoo : RouteM :=
  ⟨"/foo",
   [⟨"get", "get_foos", 1⟩, ⟨"post", "create_foo", 2⟩],
   none, 10, some "MyHandler"⟩

/-- Test fixture: the resolved signature of the spec's decorated
function: a decorator-injected `extra: str`, a required `name` of a
validating type, and an optional `is_alive` with a default. -/
def exampleDecoratedSig : List FuncParam :=
  [⟨"extra", .plain, false⟩,
   ⟨"name", .validating, false⟩,
   ⟨"is_alive", .validating, true⟩]

/-- C1: Every exception escaping the dispatch pipeline body is
translated by a fixed first-match mapping: a 400-kind error (invalid
value, parse, type-system, schema validation) becomes HTTP 400 with the
`errors` payload attached, unauthorized becomes 401, forbidden 403,
not-found 404, immutable 409; any other exception, with debug off and
no allowed-exceptions match, becomes a 500 whose message is exactly
"Uncaught error in logic function", with the original exception logged
and not exposed. -/
theorem c1_exception_translation (debug : Bool) (allowed : List Nat) (e : Exc) :
    (catches400 e.kind = true →
      translateException debug allowed e =
        ⟨.raised (.http400 e.msg e.errors), false⟩) ∧
    (e.kind = .unauthorized →
      translateException debug allowed e = ⟨.raised (.http401 e.msg), false⟩) ∧
    (e.kind = .forbidden →
      translateException debug allowed e = ⟨.raised (.http403 e.msg), false⟩) ∧
    (e.kind = .notFound →
      translateException debug allowed e = ⟨.raised (.http404 e.msg), false⟩) ∧
    (e.kind = .immutable →
      translateException debug allowed e = ⟨.raised (.http409 e.msg), false⟩) ∧
    (e.kind = .other → debug = false →
      (∀ c ∈ allowed, isInstanceOf e c = false) →
      translateException debug allowed e =
        ⟨.raised (.http500 "Uncaught error in logic function"), true⟩) := by
  refine ⟨?_, ?_, ?_, ?_, ?_, ?_⟩
  · intro h
    simp [translateException, h]
  · intro h
    simp [translateException, catches400, h]
  · intro h
    simp [translateException, catches400, h]
  · intro h
    simp [translateException, catches400, h]
  · intro h
    simp [translateException, catches400, h]
  · intro hk hd hall
    have hany : allowed.any (fun c => isInstanceOf e c) = false := by
      simp only [List.any_eq_false]
      intro c hc
      simpa using hall c hc
    simp [translateException, catches400, hk, hd, hany]

/-- Witness for C1 at concrete exceptions: an invalid-value error maps
to 400 with its payload, an unauthorized error to 401, and an
unrecognized error with debug off and empty allow-list to the fixed
500. -/
theorem c1_exception_translation_witness :
    (translateException false [] ⟨.invalidValue, "bad", some [("x", "no")], 7, []⟩ =
      ⟨.raised (.http400 "bad" (some [("x", "no")])), false⟩) ∧
    (translateException false [] ⟨.unauthorized, "who", none, 8, []⟩ =
      ⟨.raised (.http401 "who"), false⟩) ∧
    (translateException false [] ⟨.other, "boom", none, 9, []⟩ =
      ⟨.raised (.http500 "Uncaught error in logic function"), true⟩) := by
  refine ⟨?_, ?_, ?_⟩
  · exact (c1_exception_translation false []
      ⟨.invalidValue, "bad", some [("x", "no")], 7, []⟩).1 (by decide)
  · exact (c1_exception_translation false []
      ⟨.unauthorized, "who", none, 8, []⟩).2.1 rfl
  · exact (c1_exception_translation false []
      ⟨.other, "boom", none, 9, []⟩).2.2.2.2.2 rfl rfl (by intro c hc; simp at hc)

/-- C2: The two escape hatches apply only to the catch-all case: an
exception of unrecognized kind re-raises unchanged when the debug flag
is set, or when its concrete class is a member of the allowed-exceptions
list; and each of the five named kinds maps to its status even when
debug is set. -/
theorem c2_escape_hatches (debug : Bool) (allowed : List Nat) (e : Exc) :
    (e.kind = .other → debug = true →
      translateException debug allowed e = ⟨.reraised e, false⟩) ∧
    (e.kind = .other → e.cls ∈ allowed →
      translateException debug allowed e = ⟨.reraised e, false⟩) ∧
    (catches400 e.kind = true →
      translateException true allowed e =
        ⟨.raised (.http400 e.msg e.errors), false⟩) ∧
    (e.kind = .unauthorized →
      translateException true allowed e = ⟨.raised (.http401 e.msg), false⟩) ∧
    (e.kind = .forbidden →
      translateException true allowed e = ⟨.raised (.http403 e.msg), false⟩) ∧
    (e.kind = .notFound →
      translateException true allowed e = ⟨.raised (.http404 e.msg), false⟩) ∧
    (e.kind = .immutable →
      translateException true allowed e = ⟨.raised (.http409 e.msg), false⟩) := by
  refine ⟨?_, ?_, ?_, ?_, ?_, ?_, ?_⟩
  · intro hk hd
    simp [translateException, catches400, hk, hd]
  · intro hk hc
    have hinst : isInstanceOf e e.cls = true := by
      simp [isInstanceOf]
    have hany : allowed.any (fun c => isInstanceOf e c) = true := by
      simp only [List.any_eq_true]
      exact ⟨e.cls, hc, hinst⟩
    cases debug with
    | false => simp [translateException, catches400, hk, hany]
    | true => simp [translateException, catches400, hk]
  · intro h
    simp [translateException, h]
  · intro h
    simp [translateException, catches400, h]
  · intro h
    simp [translateException, catches400, h]
  · intro h
    simp [translateException, catches400, h]
  · intro h
    simp [translateException, catches400, h]

/-- Witness for C2 at concrete exceptions: an unrecognized error
re-raises under debug, re-raises when its class is allowed even with
debug off, and a not-found error still maps to 404 with debug on. -/
theorem c2_escape_hatches_witness :
    (translateException true [] ⟨.other, "boom", none, 3, []⟩ =
      ⟨.reraised ⟨.other, "boom", none, 3, []⟩, false⟩) ∧
    (translateException false [5] ⟨.other, "boom", none, 5, []⟩ =
      ⟨.reraised ⟨.other, "boom", none, 5, []⟩, false⟩) ∧
    (translateException true [] ⟨.notFound, "gone", none, 4, []⟩ =
      ⟨.raised (.http404 "gone"), false⟩) := by
  refine ⟨?_, ?_, ?_⟩
  · exact (c2_escape_hatches true [] ⟨.other, "boom", none, 3, []⟩).1 rfl rfl
  · exact (c2_escape_hatches false [5] ⟨.other, "boom", none, 5, []⟩).2.1 rfl
      (by decide)
  · exact (c2_escape_hatches true [] ⟨.notFound, "gone", none, 4, []⟩).2.2.2.2.2.1
      rfl

theorem string_length_append (a b : String) :
    (a ++ b).length = a.length + b.length := by
  cases a with
  | mk l =>
    cases b with
    | mk m =>
      show (String.mk (l ++ m)).length = _
      rw [String.mk_length, String.mk_length, String.mk_length]
      simp

theorem string_length_take_of_le (s : String) (n : Nat) (h : n ≤ s.length) :
    (s.take n).length = n := by
  cases s with
  | mk l =>
    rw [String.take_eq]
    rw [String.mk_length] at h ⊢
    simp only [List.length_take]
    omega

/-- C3: On successful dispatch the reply for a Response envelope is
the 3-tuple of content, verb-driven status and envelope headers, and for
any other value the 2-tuple of the raw value and verb-driven status; the
status is 201 for POST, 204 for DELETE and 200 for every other verb,
with no per-route override. -/
theorem c3_response_shaping (method : String) (r : LogicResult) :
    (∀ c h, r = .envelope c h →
      shapeResponse method r = .withHeaders c (statusFor method) h) ∧
    (∀ v, r = .plain v →
      shapeResponse method r = .noHeaders v (statusFor method)) ∧
    statusFor "POST" = 201 ∧
    statusFor "DELETE" = 204 ∧
    (method ≠ "POST" → method ≠ "DELETE" → statusFor method = 200) := by
  refine ⟨?_, ?_, by decide, by decide, ?_⟩
  · intro c h hr
    subst hr
    rfl
  · intro v hr
    subst hr
    rfl
  · intro h1 h2
    have hb1 : (method == "POST") = false := beq_eq_false_iff_ne.mpr h1
    have hb2 : (method == "DELETE") = false := beq_eq_false_iff_ne.mpr h2
    simp [statusFor, STATUS_CODE_MAP, List.lookup, hb1, hb2]

/-- Witness for C3: a GET reply keeps envelope headers or stays bare,
and GET maps to status 200. -/
theorem c3_response_shaping_witness :
    shapeResponse "GET" (.envelope (.str "x") [("X-Hdr", "v")]) =
      .withHeaders (.str "x") (statusFor "GET") [("X-Hdr", "v")] ∧
    shapeResponse "GET" (.plain (.str "y")) =
      .noHeaders (.str "y") (statusFor "GET") ∧
    statusFor "GET" = 200 := by
  refine ⟨?_, ?_, ?_⟩
  · exact (c3_response_shaping "GET" (.envelope (.str "x") [("X-Hdr", "v")])).1
      (.str "x") [("X-Hdr", "v")] rfl
  · exact (c3_response_shaping "GET" (.plain (.str "y"))).2.1 (.str "y") rfl
  · exact (c3_response_shaping "GET" (.plain (.str "y"))).2.2.2.2
      (by decide) (by decide)

/-- C7: A stringified response longer than `MAX_RESPONSE_LENGTH` is
logged as exactly the first `MAX_RESPONSE_LENGTH` characters followed by
the ellipsis marker, never more; one at or below the limit is logged in
full without the marker. -/
theorem c7_truncation (s : String) :
    (s.length > MAX_RESPONSE_LENGTH →
      truncateResponse s = s.take MAX_RESPONSE_LENGTH ++ "..." ∧
      (truncateResponse s).length = MAX_RESPONSE_LENGTH + 3) ∧
    (s.length ≤ MAX_RESPONSE_LENGTH → truncateResponse s = s) := by
  constructor
  · intro h
    have he : truncateResponse s = s.take MAX_RESPONSE_LENGTH ++ "..." := by
      simp [truncateResponse, h]
    refine ⟨he, ?_⟩
    rw [he, string_length_append,
      string_length_take_of_le s _ (Nat.le_of_lt h),
      show ("..." : String).length = 3 from by decide]
  · intro h
    simp only [truncateResponse]
    rw [if_neg (by omega)]

/-- Witness for C7: an 8200-character response is truncated to the limit
plus the marker, and a short response is logged unchanged. -/
theorem c7_truncation_witness :
    (String.replicate 8200 'a').length > MAX_RESPONSE_LENGTH ∧
    (truncateResponse (String.replicate 8200 'a') =
      (String.replicate 8200 'a').take MAX_RESPONSE_LENGTH ++ "..." ∧
     (truncateResponse (String.replicate 8200 'a')).length =
      MAX_RESPONSE_LENGTH + 3) ∧
    truncateResponse "short" = "short" := by
  have h : (String.replicate 8200 'a').length > MAX_RESPONSE_LENGTH := by
    rw [String.length_replicate]
    norm_num [MAX_RESPONSE_LENGTH]
  exact ⟨h, (c7_truncation _).1 h, (c7_truncation "short").2 (by decide)⟩

/-- C9: The wrapper produced by `create_http_method` applies
`doctor.flask.handle_http` to four positional arguments while that
function declares nine parameters with no defaults, so every invocation
of a synthesized handler callable fails with an arity error (five
parameters unbound) before the dispatch pipeline body executes. -/
theorem c9_handler_arity :
    handle_http_params.length = 9 ∧
    handle_http_default_count = 0 ∧
    create_http_method_args.length = 4 ∧
    ∀ (α : Type) (body : Unit → α), invokeCreatedHandler body = .arityError 5 := by
  refine ⟨by decide, by decide, by decide, ?_⟩
  intro α body
  have hb : pythonCallBinds handle_http_params.length handle_http_default_count
      create_http_method_args.length = false := by decide
  simp only [invokeCreatedHandler, hb, Bool.false_eq_true, if_false]
  norm_num [handle_http_params, handle_http_default_count,
    create_http_method_args]

/-- C10: For every resolved signature with distinct parameter names,
`get_params_from_func` yields `required ⊆ all`, `required` disjoint from
`optional`, all four fields empty for a parameterless function, and a
decorator-injected parameter without a validating-type annotation in
`all` and `logic` but never in `required`. -/
theorem c10_param_set_invariants (sig : List FuncParam)
    (hnd : (sig.map (fun p => p.name)).Nodup) :
    ((get_params_from_func sig).required ⊆ (get_params_from_func sig).all) ∧
    (∀ x ∈ (get_params_from_func sig).required,
      x ∉ (get_params_from_func sig).optional) ∧
    (sig = [] → get_params_from_func sig = ⟨[], [], [], []⟩) ∧
    (∀ p ∈ sig, p.annKind = .plain →
      p.name ∈ (get_params_from_func sig).all ∧
      p.name ∈ (get_params_from_func sig).logic ∧
      p.name ∉ (get_params_from_func sig).required) := by
  refine ⟨?_, ?_, ?_, ?_⟩
  · intro x hx
    simp only [get_params_from_func, List.mem_map, List.mem_filter] at hx ⊢
    obtain ⟨p, ⟨hps, _⟩, he⟩ := hx
    exact ⟨p, hps, he⟩
  · intro x hx hxo
    simp only [get_params_from_func, List.mem_map, List.mem_filter] at hx hxo
    obtain ⟨p, ⟨hps, hpred⟩, he⟩ := hx
    obtain ⟨q, ⟨hqs, hq⟩, heq⟩ := hxo
    have hpq : p = q :=
      List.inj_on_of_nodup_map hnd hps hqs (by rw [he, heq])
    rw [hpq] at hpred
    simp only [Bool.and_eq_true, Bool.not_eq_true'] at hpred
    rw [hpred.2] at hq
    exact Bool.false_ne_true hq
  · intro h
    subst h
    rfl
  · intro p hp hplain
    refine ⟨?_, ?_, ?_⟩
    · simp only [get_params_from_func, List.mem_map]
      exact ⟨p, hp, rfl⟩
    · simp only [get_params_from_func, List.mem_map]
      exact ⟨p, hp, rfl⟩
    · intro hx
      simp only [get_params_from_func, List.mem_map, List.mem_filter] at hx
      obtain ⟨q, ⟨hqs, hq⟩, heq⟩ := hx
      have hpq : p = q :=
        List.inj_on_of_nodup_map hnd hp hqs heq.symm
      simp only [Bool.and_eq_true, beq_iff_eq] at hq
      rw [← hpq] at hq
      rw [hplain] at hq
      exact AnnKind.noConfusion hq.1

/-- Witness for C10 at the spec's decorated-function signature: `name`
is required and inside `all`, `is_alive` is optional and not required,
and the injected `extra` is in `all`/`logic` but not required. -/
theorem c10_param_set_invariants_witness :
    ((get_params_from_func exampleDecoratedSig).required ⊆
      (get_params_from_func exampleDecoratedSig).all) ∧
    ("extra" ∈ (get_params_from_func exampleDecoratedSig).all ∧
     "extra" ∈ (get_params_from_func exampleDecoratedSig).logic ∧
     "extra" ∉ (get_params_from_func exampleDecoratedSig).required) := by
  have hnd : (exampleDecoratedSig.map (fun p => p.name)).Nodup := by decide
  refine ⟨(c10_param_set_invariants exampleDecoratedSig hnd).1, ?_⟩
  exact (c10_param_set_invariants exampleDecoratedSig hnd).2.2.2
    ⟨"extra", .plain, false⟩ (by decide) rfl

theorem lookup_cons {β : Type} (a k : String) (b : β) (es : StrMap β) :
    ((k, b) :: es).lookup a = if a == k then some b else es.lookup a := by
  cases h : a == k <;> simp [List.lookup, h]

theorem lookup_map_overwrite_ne {β : Type} (k kq : String) (v : β)
    (hne : (kq == k) = false) (d : StrMap β) :
    (d.map (fun kv => if kv.1 == k then (k, v) else kv)).lookup kq =
      d.lookup kq := by
  induction d with
  | nil => rfl
  | cons hd tl ih =>
    obtain ⟨a, b⟩ := hd
    cases ha : a == k with
    | true =>
      have ha2 : a = k := by simpa using ha
      subst ha2
      simp only [List.map_cons, ha, if_true]
      rw [lookup_cons, lookup_cons, if_neg (by simp [hne]), if_neg (by simp [hne]), ih]
    | false =>
      simp only [List.map_cons, ha, Bool.false_eq_true, if_false]
      rw [lookup_cons, lookup_cons, ih]

theorem dictInsert_lookup {β : Type} (k kq : String) (v : β) (d : StrMap β) :
    (dictInsert d k v).lookup kq = if kq == k then some v else d.lookup kq := by
  induction d with
  | nil =>
    show (([] : StrMap β) ++ [(k, v)]).lookup kq = _
    rw [List.nil_append, lookup_cons]
  | cons hd tl ih =>
    obtain ⟨a, b⟩ := hd
    cases ha : a == k with
    | true =>
      have ha2 : a = k := by simpa using ha
      subst ha2
      have hany : (((a, b) :: tl).any (fun kv => kv.1 == a)) = true := by
        simp
      simp only [dictInsert, hany, if_true, List.map_cons, beq_self_eq_true]
      rw [lookup_cons]
      cases hq : kq == a with
      | true => simp [hq]
      | false =>
        rw [lookup_map_overwrite_ne a kq v hq tl, lookup_cons]
        simp [hq]
    | false =>
      cases hany : tl.any (fun kv => kv.1 == k) with
      | true =>
        have hall : (((a, b) :: tl).any (fun kv => kv.1 == k)) = true := by
          simp only [List.any_cons, hany, Bool.or_true]
        have hins : dictInsert tl k v =
            tl.map (fun kv => if kv.1 == k then (k, v) else kv) := by
          simp [dictInsert, hany]
        simp only [dictInsert, hall, if_true, List.map_cons, ha,
          Bool.false_eq_true, if_false]
        rw [lookup_cons, ← hins, ih, lookup_cons]
        cases hq : kq == a with
        | true =>
          have h1 : kq = a := by simpa using hq
          have h2 : (kq == k) = false := by
            subst h1
            exact ha
          simp [hq, h2]
        | false => simp [hq]
      | false =>
        have hall : (((a, b) :: tl).any (fun kv => kv.1 == k)) = false := by
          simp only [List.any_cons, ha, hany, Bool.or_self]
        have hins : dictInsert tl k v = tl ++ [(k, v)] := by
          simp [dictInsert, hany]
        simp only [dictInsert, hall, Bool.false_eq_true, if_false,
          List.cons_append]
        rw [lookup_cons, ← hins, ih, lookup_cons]
        cases hq : kq == a with
        | true =>
          have h1 : kq = a := by simpa using hq
          have h2 : (kq == k) = false := by
            subst h1
            exact ha
          simp [hq, h2]
        | false => simp [hq]

theorem dictUpdate_lookup_not_has {β : Type} (kwargs : StrMap β) :
    ∀ (d : StrMap β) (k : String), dictHas kwargs k = false →
      (dictUpdate d kwargs).lookup k = d.lookup k := by
  induction kwargs with
  | nil =>
    intro d k h
    rfl
  | cons hd rest ih =>
    obtain ⟨k1, v1⟩ := hd
    intro d k h
    simp only [dictHas, List.any_cons, Bool.or_eq_false_iff] at h
    have hstep : dictUpdate d ((k1, v1) :: rest) =
        dictUpdate (dictInsert d k1 v1) rest := rfl
    rw [hstep, ih (dictInsert d k1 v1) k h.2, dictInsert_lookup]
    have hkk1 : (k == k1) = false := by
      have h1 : k1 ≠ k := by simpa using h.1
      exact beq_eq_false_iff_ne.mpr (fun he => h1 he.symm)
    simp [hkk1]

theorem dictUpdate_lookup_mem {β : Type} (kwargs : StrMap β) :
    ∀ (d : StrMap β) (k : String) (v : β), (k, v) ∈ kwargs →
      (kwargs.map Prod.fst).Nodup →
      (dictUpdate d kwargs).lookup k = some v := by
  induction kwargs with
  | nil =>
    intro d k v h
    cases h
  | cons hd rest ih =>
    obtain ⟨k1, v1⟩ := hd
    intro d k v hmem hnd
    have hstep : dictUpdate d ((k1, v1) :: rest) =
        dictUpdate (dictInsert d k1 v1) rest := rfl
    simp only [List.map_cons, List.nodup_cons] at hnd
    rcases List.mem_cons.mp hmem with heq | hrest
    · injection heq with hk hv
      subst hk
      subst hv
      have hhas : dictHas rest k = false := by
        simp only [dictHas, List.any_eq_false]
        intro kv hkv
        simp only [Bool.not_eq_true, beq_eq_false_iff_ne]
        intro he
        exact hnd.1 (List.mem_map.mpr ⟨kv, hkv, he⟩)
      rw [hstep, dictUpdate_lookup_not_has rest _ k hhas, dictInsert_lookup]
      simp
    · rw [hstep]
      exact ih (dictInsert d k1 v1) k v hrest hnd.2

theorem mem_dictInsert {β : Type} (d : StrMap β) (k : String) (v : β) :
    ∀ kv ∈ dictInsert d k v, kv.1 = k ∨ kv ∈ d := by
  intro kv hkv
  cases hany : d.any (fun kv0 => kv0.1 == k) with
  | true =>
    simp only [dictInsert, hany, if_true] at hkv
    obtain ⟨kv0, hkv0, heq⟩ := List.mem_map.mp hkv
    cases h0 : kv0.1 == k with
    | true =>
      rw [h0] at heq
      have heq2 : (k, v) = kv := by simpa using heq
      left
      rw [← heq2]
    | false =>
      rw [h0] at heq
      simp only [Bool.false_eq_true, if_false] at heq
      right
      rw [← heq]
      exact hkv0
  | false =>
    simp only [dictInsert, hany, Bool.false_eq_true, if_false] at hkv
    rcases List.mem_append.mp hkv with h1 | h2
    · right
      exact h1
    · left
      simp only [List.mem_singleton] at h2
      rw [h2]

theorem mem_dictUpdate {β : Type} (kwargs : StrMap β) :
    ∀ (d : StrMap β) (kv : String × β), kv ∈ dictUpdate d kwargs →
      kv ∈ d ∨ kv.1 ∈ kwargs.map Prod.fst := by
  induction kwargs with
  | nil =>
    intro d kv h
    left
    exact h
  | cons hd rest ih =>
    obtain ⟨k1, v1⟩ := hd
    intro d kv h
    have hstep : dictUpdate d ((k1, v1) :: rest) =
        dictUpdate (dictInsert d k1 v1) rest := rfl
    rw [hstep] at h
    rcases ih (dictInsert d k1 v1) kv h with h1 | h2
    · rcases mem_dictInsert d k1 v1 kv h1 with ha | hb
      · right
        simp [ha]
      · left
        exact hb
    · right
      simp only [List.map_cons, List.mem_cons]
      exact Or.inr h2

theorem checkRequired_all_present (params : Dict) :
    ∀ required : List String, (∀ x ∈ required, dictHas params x = true) →
      checkRequired required params = none := by
  intro required
  induction required with
  | nil =>
    intro h
    rfl
  | cons r rest ih =>
    intro h
    simp only [checkRequired, h r (List.mem_cons_self r rest), if_true]
    exact ih (fun x hx => h x (List.mem_cons_of_mem r hx))

theorem checkRequired_first_missing (params : Dict) :
    ∀ (pre : List String) (r : String) (post : List String),
      (∀ x ∈ pre, dictHas params x = true) → dictHas params r = false →
      checkRequired (pre ++ r :: post) params =
        some ⟨.invalidValue, r ++ " is required.", none, 0, []⟩ := by
  intro pre
  induction pre with
  | nil =>
    intro r post _ hmiss
    simp only [List.nil_append, checkRequired, hmiss, Bool.false_eq_true,
      if_false]
  | cons p pre2 ih =>
    intro r post hpre hmiss
    simp only [List.cons_append, checkRequired,
      hpre p (List.mem_cons_self p pre2), if_true]
    exact ih r post (fun x hx => hpre x (List.mem_cons_of_mem p hx)) hmiss

/-- C4: In type-annotation mode, when a required parameter is absent
from the merged parameter mapping, dispatch raises an invalid-value
error, translated to HTTP 400, naming the first missing required
parameter in required-list order, and never invokes the logic
function. -/
theorem c4_missing_required (debug envRaise : Bool) (allowed : List Nat)
    (req : Request) (kwargs : Dict) (logic : LogicFn)
    (pre : List String) (r : String) (post : List String)
    (hreq : logic.params.required = pre ++ r :: post)
    (hpre : ∀ x ∈ pre,
      dictHas (mergedParams req logic.params.all kwargs) x = true)
    (hmiss : dictHas (mergedParams req logic.params.all kwargs) r = false) :
    handleHttpV3 debug envRaise allowed req kwargs logic =
      ⟨.httpError (.http400 (r ++ " is required.") none), [], false, false⟩ := by
  have hchk : checkRequired logic.params.required
      (mergedParams req logic.params.all kwargs) =
      some ⟨.invalidValue, r ++ " is required.", none, 0, []⟩ := by
    rw [hreq]
    exact checkRequired_first_missing _ pre r post hpre hmiss
  have hbody : handleHttpV3Body debug envRaise req kwargs logic =
      ⟨.error ⟨.invalidValue, r ++ " is required.", none, 0, []⟩, [], false⟩ := by
    simp [handleHttpV3Body, hchk]
  simp [handleHttpV3, hbody, translateException, catches400]

/-- Witness for C4: a JSON POST with empty body to a logic function
requiring `name` yields the 400 naming `name`, with the logic function
not invoked. -/
theorem c4_missing_required_witness :
    handleHttpV3 false false [] exampleEmptyPost [] exampleLogicName =
      ⟨.httpError (.http400 "name is required." none), [], false, false⟩ := by
  exact c4_missing_required false false [] exampleEmptyPost [] exampleLogicName
    [] "name" [] rfl (by intro x hx; cases hx) (by decide)

/-- C5: The parameter source is the parsed JSON body exactly when
the mimetype is `application/json` and the verb carries a JSON body,
the flat query/form mapping otherwise; entries are filtered to the
logic function's `all` names, and router-supplied kwargs are merged
last, overriding same-named request values. -/
theorem c5_parameter_sources (req : Request) (allNames : List String)
    (kwargs : Dict) :
    (req.mimetype = "application/json" →
      req.method ∈ HTTP_METHODS_WITH_JSON_BODY →
      rawRequestParams req = req.json) ∧
    (¬(req.mimetype = "application/json" ∧
        req.method ∈ HTTP_METHODS_WITH_JSON_BODY) →
      rawRequestParams req = req.values) ∧
    (∀ kv ∈ mergedParams req allNames kwargs,
      kv.1 ∈ allNames ∨ kv.1 ∈ kwargs.map Prod.fst) ∧
    (∀ k, dictHas kwargs k = false →
      (mergedParams req allNames kwargs).lookup k =
        ((rawRequestParams req).filter
          (fun kv => allNames.contains kv.1)).lookup k) ∧
    (∀ k v, (k, v) ∈ kwargs → (kwargs.map Prod.fst).Nodup →
      (mergedParams req allNames kwargs).lookup k = some v) := by
  refine ⟨?_, ?_, ?_, ?_, ?_⟩
  · intro h1 h2
    simp [rawRequestParams, h1, h2]
  · intro h
    simp [rawRequestParams, h]
  · intro kv hkv
    rcases mem_dictUpdate kwargs _ kv hkv with h1 | h2
    · left
      have hf := List.mem_filter.mp h1
      simpa using hf.2
    · right
      exact h2
  · intro k hk
    exact dictUpdate_lookup_not_has kwargs _ k hk
  · intro k v hkv hnd
    exact dictUpdate_lookup_mem kwargs _ k v hkv hnd

/-- Witness for C5: a JSON POST reads the body, `junk` is filtered out
while `name` survives, and a router kwarg overrides the body. -/
theorem c5_parameter_sources_witness :
    rawRequestParams exampleNamePost = exampleNamePost.json ∧
    (∀ kv ∈ mergedParams exampleNamePost ["name"] [("name", .str "router")],
      kv.1 ∈ (["name"] : List String) ∨
        kv.1 ∈ ([("name", Val.str "router")].map Prod.fst)) ∧
    (mergedParams exampleNamePost ["name"]
      [("name", .str "router")]).lookup "name" = some (.str "router") := by
  refine ⟨?_, ?_, ?_⟩
  · exact (c5_parameter_sources exampleNamePost ["name"]
      [("name", .str "router")]).1 rfl (by decide)
  · exact (c5_parameter_sources exampleNamePost ["name"]
      [("name", .str "router")]).2.2.1
  · exact (c5_parameter_sources exampleNamePost ["name"]
      [("name", .str "router")]).2.2.2.2 "name" (.str "router")
      (List.mem_singleton.mpr rfl) (by decide)

/-- C6: When a declared response annotation rejects the returned
value and the effective raise policy is off, a warning is logged and the
original value is returned with its verb-driven status, no exception
surfacing; the policy raises in type-annotation mode iff DEBUG or the
environment override is set, and in schema mode iff the per-resource
flag is set. -/
theorem c6_response_validation_policy (debug envRaise : Bool)
    (allowed : List Nat) (req : Request) (kwargs : Dict) (logic : LogicFn)
    (cp : Dict) (resp : LogicResult) (va : Val → Except Exc Val) (e : Exc)
    (validate : Val → Option Exc)
    (h1 : checkRequired logic.params.required
      (mergedParams req logic.params.all kwargs) = none)
    (h2 : coerceParams logic.sig
      (mergedParams req logic.params.all kwargs) = .ok cp)
    (h3 : logic.run cp = .ok resp)
    (h4 : logic.returnAnn = some va)
    (h5 : va (contentOf resp) = .error e)
    (h6 : e.kind = .typeSystem) :
    (debug = false → envRaise = false →
      handleHttpV3 debug envRaise allowed req kwargs logic =
        ⟨.ok (shapeResponse req.method resp),
         [respWarning req.method req.path (pyStr (contentOf resp))],
         false, true⟩) ∧
    ((debug || envRaise) = true →
      handleHttpV3Body debug envRaise req kwargs logic =
        ⟨.error e,
         [respWarning req.method req.path (pyStr (contentOf resp))], true⟩) ∧
    (∀ e2 resp2 rs2, validate (contentOf resp2) = some e2 →
      e2.kind = .schemaValidation →
      handleHttpRespValidation false req.method req.path validate resp2 rs2 =
        (.ok (), [respWarning req.method req.path rs2])) ∧
    (∀ e2 resp2 rs2, validate (contentOf resp2) = some e2 →
      e2.kind = .schemaValidation →
      handleHttpRespValidation true req.method req.path validate resp2 rs2 =
        (.error e2, [respWarning req.method req.path rs2])) := by
  refine ⟨?_, ?_, ?_, ?_⟩
  · intro hd he
    subst hd
    subst he
    have hbody : handleHttpV3Body false false req kwargs logic =
        ⟨.ok (shapeResponse req.method resp),
         [respWarning req.method req.path (pyStr (contentOf resp))], true⟩ := by
      simp [handleHttpV3Body, h1, h2, h3, h4, h5, h6,
        should_raise_response_validation_errors]
    simp [handleHttpV3, hbody]
  · intro hde
    simp [handleHttpV3Body, h1, h2, h3, h4, h5, h6,
      should_raise_response_validation_errors, hde]
  · intro e2 resp2 rs2 hv hk
    simp [handleHttpRespValidation, hv, hk]
  · intro e2 resp2 rs2 hv hk
    simp [handleHttpRespValidation, hv, hk]

/-- Witness for C6: with debug and the environment override off, the
failing response is returned as a 200 GET reply with one warning; with
the override on, the body re-raises; the schema-mode flag decides the
same way. -/
theorem c6_response_validation_policy_witness :
    (handleHttpV3 false false [] exampleGet [] exampleBadReturnLogic =
      ⟨.ok (shapeResponse "GET" (.plain (.str "bad"))),
       [respWarning "GET" "/foo" "bad"], false, true⟩) ∧
    (handleHttpV3Body false true exampleGet [] exampleBadReturnLogic =
      ⟨.error ⟨.typeSystem, "bad type", none, 0, []⟩,
       [respWarning "GET" "/foo" "bad"], true⟩) ∧
    (handleHttpRespValidation false "GET" "/foo"
      (fun _ => some ⟨.schemaValidation, "sv", none, 0, []⟩)
      (.plain (.str "z")) "z" =
        (.ok (), [respWarning "GET" "/foo" "z"])) ∧
    (handleHttpRespValidation true "GET" "/foo"
      (fun _ => some ⟨.schemaValidation, "sv", none, 0, []⟩)
      (.plain (.str "z")) "z" =
        (.error ⟨.schemaValidation, "sv", none, 0, []⟩,
         [respWarning "GET" "/foo" "z"])) := by
  refine ⟨?_, ?_, ?_, ?_⟩
  · exact (c6_response_validation_policy false false [] exampleGet []
      exampleBadReturnLogic [] (.plain (.str "bad"))
      (fun _ => .error ⟨.typeSystem, "bad type", none, 0, []⟩)
      ⟨.typeSystem, "bad type", none, 0, []⟩
      (fun _ => some ⟨.schemaValidation, "sv", none, 0, []⟩)
      rfl rfl rfl rfl rfl rfl).1 rfl rfl
  · exact (c6_response_validation_policy false true [] exampleGet []
      exampleBadReturnLogic [] (.plain (.str "bad"))
      (fun _ => .error ⟨.typeSystem, "bad type", none, 0, []⟩)
      ⟨.typeSystem, "bad type", none, 0, []⟩
      (fun _ => some ⟨.schemaValidation, "sv", none, 0, []⟩)
      rfl rfl rfl rfl rfl rfl).2.1 rfl
  · exact (c6_response_validation_policy false false [] exampleGet []
      exampleBadReturnLogic [] (.plain (.str "bad"))
      (fun _ => .error ⟨.typeSystem, "bad type", none, 0, []⟩)
      ⟨.typeSystem, "bad type", none, 0, []⟩
      (fun _ => some ⟨.schemaValidation, "sv", none, 0, []⟩)
      rfl rfl rfl rfl rfl rfl).2.2.1
      ⟨.schemaValidation, "sv", none, 0, []⟩ (.plain (.str "z")) "z" rfl rfl
  · exact (c6_response_validation_policy false false [] exampleGet []
      exampleBadReturnLogic [] (.plain (.str "bad"))
      (fun _ => .error ⟨.typeSystem, "bad type", none, 0, []⟩)
      ⟨.typeSystem, "bad type", none, 0, []⟩
      (fun _ => some ⟨.schemaValidation, "sv", none, 0, []⟩)
      rfl rfl rfl rfl rfl rfl).2.2.2
      ⟨.schemaValidation, "sv", none, 0, []⟩ (.plain (.str "z")) "z" rfl rfl

theorem foldl_addMethod (r : RouteM) :
    ∀ (ms : List HTTPMethodM) (h : Handler),
      ∃ vf : StrMap Nat,
        ms.foldl (addMethod r) (some h) =
          some ⟨h.name, h.base, h.heading, vf,
            h.methods ++ ms.map (fun m => m.method.toUpper)⟩ ∧
        (∀ k, (h.verbFuncs.lookup k).isSome → (vf.lookup k).isSome) ∧
        (∀ m ∈ ms, (vf.lookup m.method).isSome) := by
  intro ms
  induction ms with
  | nil =>
    intro h
    exact ⟨h.verbFuncs, by simp, fun k hk => hk, by simp⟩
  | cons m rest ih =>
    intro h
    obtain ⟨vf, hfold, hmono, hmem⟩ :=
      ih ⟨h.name, h.base, h.heading,
        dictInsert h.verbFuncs m.method m.logicId,
        h.methods ++ [m.method.toUpper]⟩
    refine ⟨vf, ?_, ?_, ?_⟩
    · rw [List.foldl_cons]
      have hstep : addMethod r (some h) m =
          some ⟨h.name, h.base, h.heading,
            dictInsert h.verbFuncs m.method m.logicId,
            h.methods ++ [m.method.toUpper]⟩ := rfl
      rw [hstep, hfold]
      simp
    · intro k hk
      apply hmono
      show ((dictInsert h.verbFuncs m.method m.logicId).lookup k).isSome
      rw [dictInsert_lookup]
      cases hq : k == m.method with
      | true => simp [hq]
      | false =>
        simp only [hq, Bool.false_eq_true, if_false]
        exact hk
    · intro m0 hm0
      rcases List.mem_cons.mp hm0 with heq | hrest
      · subst heq
        apply hmono
        show ((dictInsert h.verbFuncs m0.method m0.logicId).lookup
          m0.method).isSome
        rw [dictInsert_lookup]
        simp
      · exact hmem m0 hrest

/-- C8: `create_routes` returns exactly one (path, handler) pair per
route in input order; each handler subclasses the route's base handler
class, is named by the explicit handler name or else the first logic
function's name, exposes one callable per declared verb, and its
declared-methods list is the verbs upper-cased in declaration order. -/
theorem c8_route_synthesis (routes : List RouteM) :
    ((create_routes routes).map Prod.fst = routes.map RouteM.route) ∧
    ((create_routes routes).length = routes.length) ∧
    (∀ r ∈ routes, ∀ m0 ms, r.methods = m0 :: ms →
      ∃ h : Handler, buildHandler r = some h ∧
        h.base = r.baseHandlerClass ∧
        h.name = r.handlerName.getD m0.logicName ∧
        h.methods = r.methods.map (fun m => m.method.toUpper) ∧
        (∀ m ∈ r.methods, (h.verbFuncs.lookup m.method).isSome)) := by
  refine ⟨?_, ?_, ?_⟩
  · simp [create_routes]
  · simp [create_routes]
  · intro r hr m0 ms hms
    obtain ⟨vf, hfold, hmono, hmem⟩ := foldl_addMethod r ms
      ⟨r.handlerName.getD m0.logicName, r.baseHandlerClass, r.heading,
       [(m0.method, m0.logicId)], [m0.method.toUpper]⟩
    refine ⟨⟨r.handlerName.getD m0.logicName, r.baseHandlerClass, r.heading,
      vf, [m0.method.toUpper] ++ ms.map (fun m => m.method.toUpper)⟩,
      ?_, rfl, rfl, ?_, ?_⟩
    · rw [buildHandler, hms, List.foldl_cons]
      have hstep : addMethod r none m0 =
          some ⟨r.handlerName.getD m0.logicName, r.baseHandlerClass,
            r.heading, [(m0.method, m0.logicId)], [m0.method.toUpper]⟩ := rfl
      rw [hstep, hfold]
    · rw [hms]
      simp
    · intro m hm
      rw [hms] at hm
      rcases List.mem_cons.mp hm with heq | hrest
      · subst heq
        apply hmono
        rw [show (⟨r.handlerName.getD m.logicName, r.baseHandlerClass,
          r.heading, [(m.method, m.logicId)],
          [m.method.toUpper]⟩ : Handler).verbFuncs =
            [(m.method, m.logicId)] from rfl, lookup_cons]
        simp
      · exact hmem m hrest

/-- Witness for C8 at a GET+POST route on `/foo` with an explicit
handler name: one pair is produced, and the handler has both verb
callables with methods `["GET", "POST"]`. -/
theorem c8_route_synthesis_witness :
    (create_routes [exampleRouteFoo]).map Prod.fst = ["/foo"] ∧
    (∃ h : Handler, buildHandler exampleRouteFoo = some h ∧
      h.base = exampleRouteFoo.baseHandlerClass ∧
      h.name = exampleRouteFoo.handlerName.getD "get_foos" ∧
      h.methods = exampleRouteFoo.methods.map (fun m => m.method.toUpper) ∧
      (∀ m ∈ exampleRouteFoo.methods, (h.verbFuncs.lookup m.method).isSome)) := by
  constructor
  · have h := (c8_route_synthesis [exampleRouteFoo]).1
    simpa [exampleRouteFoo] using h
  · exact (c8_route_synthesis [exampleRouteFoo]).2.2 exampleRouteFoo
      (List.mem_singleton.mpr rfl)
      ⟨"get", "get_foos", 1⟩ [⟨"post", "create_foo", 2⟩] rfl

end Doctor
